import Mathlib

/-!
Verification of the real-time audio feature-extraction and beat-detection
engine (`distorsion_movement/audio_analyzer.py`).

The Python class `AudioAnalyzer` is embedded shallowly:
* floats become `ℚ` (all constants in the source are exact decimals);
* the mutable object state becomes the structure `AnalyzerState`
  (the published level fields plus the beat-detector fields);
* `_detect_beat` becomes the pure step `detect_beat`;
* one iteration of the `_process_audio` worker loop becomes
  `process_audio_frame`, parameterised by the FFT magnitude spectrum
  (`np.abs(np.fft.rfft(audio_data))`), whose entries are absolute values
  and hence nonnegative;
* `get_audio_features` becomes `get_audio_features`;
* the capture lifecycle (`start_audio_capture` / `stop_audio_capture`,
  the `queue.Queue()` hand-off and the worker) becomes `EngineState`,
  `audio_callback_put` and `engineStep`.
-/

/-- `np.mean` of a list of rationals.  For the empty list `ℚ` gives `0/0 = 0`;
every use in the source is guarded to nonempty selections. -/
def listMean (l : List ℚ) : ℚ := l.sum / l.length

/-- Default `sample_rate` from `AudioAnalyzer.__init__`. -/
def default_sample_rate : ℚ := 44100

/-- Default `chunk_size` from `AudioAnalyzer.__init__`. -/
def default_chunk_size : ℕ := 1024

/-- `self.beat_threshold = 1.3` from `AudioAnalyzer.__init__`. -/
def beat_threshold : ℚ := 13 / 10

/-- `self.smoothing_factor = 0.8` from `AudioAnalyzer.__init__`. -/
def smoothing_factor : ℚ := 4 / 5

/-- `self.bass_range = (20, 250)` (Hz). -/
def bass_range : ℚ × ℚ := (20, 250)

/-- `self.mid_range = (250, 4000)` (Hz). -/
def mid_range : ℚ × ℚ := (250, 4000)

/-- `self.high_range = (4000, 20000)` (Hz). -/
def high_range : ℚ × ℚ := (4000, 20000)

/-- The mutable state of an `AudioAnalyzer` object that the analysis code
reads and writes: the four smoothed levels (`self.bass_level`,
`self.mid_level`, `self.high_level`, `self.overall_volume`), and the beat
detector's `self.volume_history`, `self.beat_cooldown`,
`self.beat_detected`. -/
structure AnalyzerState where
  bass_level : ℚ
  mid_level : ℚ
  high_level : ℚ
  overall_volume : ℚ
  volume_history : List ℚ
  beat_cooldown : ℕ
  beat_detected : Bool
deriving Repr, DecidableEq

/-- The state set up by `AudioAnalyzer.__init__`: all levels `0.0`, empty
history, `beat_cooldown = 0`, `beat_detected = False`. -/
def initAnalyzerState : AnalyzerState :=
  { bass_level := 0, mid_level := 0, high_level := 0, overall_volume := 0
    volume_history := [], beat_cooldown := 0, beat_detected := false }

/-- `AudioAnalyzer._detect_beat(current_volume)`, line by line:
append `current_volume` to `volume_history`; if the history now has more
than 20 entries pop the front one; if `beat_cooldown > 0` decrement it;
then, if the history has at least 10 entries and the (post-decrement)
cooldown is 0, compare `current_volume` against
`mean(volume_history[:-5]) * beat_threshold` and on success set
`beat_detected = True` with `beat_cooldown = 10`; otherwise set
`beat_detected = False`. -/
def detect_beat (s : AnalyzerState) (current_volume : ℚ) : AnalyzerState :=
  let h1 := s.volume_history ++ [current_volume]
  let h2 := if 20 < h1.length then h1.drop 1 else h1
  let cd := if 0 < s.beat_cooldown then s.beat_cooldown - 1 else s.beat_cooldown
  if 10 ≤ h2.length ∧ cd = 0 ∧
      listMean (h2.take (h2.length - 5)) * beat_threshold < current_volume then
    { s with volume_history := h2, beat_cooldown := 10, beat_detected := true }
  else
    { s with volume_history := h2, beat_cooldown := cd, beat_detected := false }

/-- Run `_detect_beat` over a sequence of raw overall-loudness samples,
recording the `beat_detected` flag after each frame. -/
def runDetect (s : AnalyzerState) : List ℚ → List Bool
  | [] => []
  | v :: vs => (detect_beat s v).beat_detected :: runDetect (detect_beat s v) vs

/-- `np.fft.rfftfreq(n, 1/sample_rate)`: the list
`[k * sample_rate / n for k in range(n // 2 + 1)]`. -/
def rfftfreq (n : ℕ) (sample_rate : ℚ) : List ℚ :=
  (List.range (n / 2 + 1)).map (fun k : ℕ => (k : ℚ) * sample_rate / (n : ℚ))

/-- Band extraction from `_process_audio`:
`indices = np.where((freqs >= lo) & (freqs <= hi))` followed by
`np.mean(magnitude[indices]) if len(indices[0]) > 0 else 0`.
The index selection is modelled by zipping the frequency axis with the
magnitude spectrum (numpy arrays of equal length). -/
def band_mean (magnitude freqs : List ℚ) (lo hi : ℚ) : ℚ :=
  let sel := ((freqs.zip magnitude).filter
      (fun p => decide (lo ≤ p.1 ∧ p.1 ≤ hi))).map Prod.snd
  if 0 < sel.length then listMean sel else 0

/-- One iteration of the `_process_audio` worker loop, after the FFT:
the argument `magnitude` stands for `np.abs(np.fft.rfft(audio_data))` and
`n` for `len(audio_data)`.  Computes the per-band means, applies the
exponential smoothing `x = x * smoothing_factor + x_new * (1 - smoothing_factor)`
to each of the four signals, then calls `_detect_beat(volume_new)` on the
raw (pre-smoothing) overall loudness. -/
def process_audio_frame (sample_rate : ℚ) (s : AnalyzerState)
    (magnitude : List ℚ) (n : ℕ) : AnalyzerState :=
  let freqs := rfftfreq n sample_rate
  let bass_new := band_mean magnitude freqs bass_range.1 bass_range.2
  let mid_new := band_mean magnitude freqs mid_range.1 mid_range.2
  let high_new := band_mean magnitude freqs high_range.1 high_range.2
  let volume_new := listMean magnitude
  let s1 :=
    { s with
      bass_level := s.bass_level * smoothing_factor + bass_new * (1 - smoothing_factor)
      mid_level := s.mid_level * smoothing_factor + mid_new * (1 - smoothing_factor)
      high_level := s.high_level * smoothing_factor + high_new * (1 - smoothing_factor)
      overall_volume := s.overall_volume * smoothing_factor + volume_new * (1 - smoothing_factor) }
  detect_beat s1 volume_new

/-- The dictionary returned by `get_audio_features`. -/
structure AudioFeatures where
  bass_level : ℚ
  mid_level : ℚ
  high_level : ℚ
  overall_volume : ℚ
  beat_detected : Bool
deriving Repr, DecidableEq

/-- `AudioAnalyzer.get_audio_features`: each level is scaled by its
per-band constant and capped with `min(·, 1.0)`. -/
def get_audio_features (s : AnalyzerState) : AudioFeatures :=
  { bass_level := min (s.bass_level * 100) 1
    mid_level := min (s.mid_level * 50) 1
    high_level := min (s.high_level * 20) 1
    overall_volume := min (s.overall_volume * 30) 1
    beat_detected := s.beat_detected }

/-- The neutral snapshot `{0, 0, 0, 0, False}`. -/
def neutralFeatures : AudioFeatures :=
  { bass_level := 0, mid_level := 0, high_level := 0, overall_volume := 0
    beat_detected := false }

/-- States of the analyzer reachable through the worker loop: the initial
state, closed under processing audio frames.  The magnitude spectrum is
`np.abs(...)` of the FFT, so its entries are nonnegative; that fact is
recorded as a hypothesis of the step. -/
inductive ReachableAnalyzer : AnalyzerState → Prop
  | init : ReachableAnalyzer initAnalyzerState
  | step (s : AnalyzerState) (sample_rate : ℚ) (magnitude : List ℚ) (n : ℕ)
      (hmag : ∀ x ∈ magnitude, 0 ≤ x) :
      ReachableAnalyzer s →
      ReachableAnalyzer (process_audio_frame sample_rate s magnitude n)

/-- `maxsize` of `self.audio_queue = queue.Queue()`: the default, `0`,
meaning unbounded. -/
def queue_maxsize : ℕ := 0

/-- `_audio_callback`: `self.audio_queue.put(audio_data, block=False)`
wrapped in `except queue.Full: pass`.  A non-blocking `put` raises
`queue.Full` (and the callback then drops the frame) exactly when the
queue has a positive `maxsize` that is already reached; otherwise the
frame is appended at the tail. -/
def audio_callback_put (q : List (List ℚ)) (frame : List ℚ) : List (List ℚ) :=
  if 0 < queue_maxsize ∧ queue_maxsize ≤ q.length then q else q ++ [frame]

/-- Result of `pa.open(...)` as far as the engine can see: models whether
the call raises (no input device, driver failure, or a terminated
`PyAudio` instance). -/
structure EngineState where
  /-- `AUDIO_AVAILABLE`: the optional pyaudio/scipy imports succeeded. -/
  audio_available : Bool
  /-- The `self.pa` `PyAudio` instance exists and has not been
  `terminate()`d.  `__init__` creates it exactly when `AUDIO_AVAILABLE`. -/
  pa_alive : Bool
  /-- `self.stream`: `none` = never opened, `some true` = open,
  `some false` = stopped and closed. -/
  stream_open : Option Bool
  /-- `self.is_running`. -/
  is_running : Bool
  /-- The analysis state read and written by the worker. -/
  analyzer : AnalyzerState
deriving Repr, DecidableEq

/-- Engine state after `AudioAnalyzer.__init__`. -/
def initEngine (audio_available : Bool) : EngineState :=
  { audio_available := audio_available, pa_alive := audio_available
    stream_open := none, is_running := false, analyzer := initAnalyzerState }

/-- `AudioAnalyzer.start_audio_capture`: returns `False` immediately when
`AUDIO_AVAILABLE` is false; otherwise tries `self.pa.open(...)`.  The
argument `open_ok` models whether the device/driver side of that call
succeeds; opening also fails when the `PyAudio` instance was already
`terminate()`d (pyaudio's documented lifecycle).  On success the stream is
stored, `is_running` is set and the worker thread is started, returning
`True`; on exception the state is unchanged and `False` is returned. -/
def start_audio_capture (s : EngineState) (open_ok : Bool) : Bool × EngineState :=
  if !s.audio_available then (false, s)
  else if s.pa_alive && open_ok then
    (true, { s with stream_open := some true, is_running := true })
  else (false, s)

/-- `AudioAnalyzer.stop_audio_capture`: sets `is_running = False`; if
`self.stream` exists, calls `stop_stream()` and `close()` on it; if
`self.pa` exists, calls `terminate()` on it (so `pa_alive` becomes false
whenever the instance existed). -/
def stop_audio_capture (s : EngineState) : EngineState :=
  { s with
    is_running := false
    stream_open := match s.stream_open with | some _ => some false | none => none
    pa_alive := false }

/-- External events driving the engine: lifecycle calls and audio frames
arriving from the device (a frame is analysed only while the worker is
running). -/
inductive AudioEvent
  | start (open_ok : Bool)
  | stop
  | frame (magnitude : List ℚ) (n : ℕ)

/-- One engine transition. -/
def engineStep (sample_rate : ℚ) (s : EngineState) : AudioEvent → EngineState
  | .start open_ok => (start_audio_capture s open_ok).2
  | .stop => stop_audio_capture s
  | .frame magnitude n =>
      if s.is_running then
        { s with analyzer := process_audio_frame sample_rate s.analyzer magnitude n }
      else s

/-- Fold a sequence of events over the engine. -/
def engineRun (sample_rate : ℚ) (s : EngineState) (evs : List AudioEvent) : EngineState :=
  evs.foldl (engineStep sample_rate) s

/-- One exponential-smoothing update from `_process_audio`:
`x * smoothing_factor + x_new * (1 - smoothing_factor)`. -/
def smooth_update (s v : ℚ) : ℚ := s * smoothing_factor + v * (1 - smoothing_factor)

/-- The smoothed value after `n` updates with constant raw input `v`,
starting from the initial value `0` set by `__init__`. -/
def smooth_iter (v : ℚ) : ℕ → ℚ
  | 0 => 0
  | n + 1 => smooth_update (smooth_iter v n) v

/-- The published state as a concurrent reader can see it in the middle of
one processing cycle: the worker publishes by five separate field writes
(`_process_audio` lines writing `bass_level`, `mid_level`, `high_level`,
`overall_volume` in that order, then `_detect_beat` writing
`beat_detected`), so after the first `i` of those writes the remaining
fields still hold the previous cycle's values.  `publish_upto sample_rate
s magnitude n 0 = s` on the published fields and `publish_upto … 5` agrees
with `process_audio_frame`. -/
def publish_upto (sample_rate : ℚ) (s : AnalyzerState) (magnitude : List ℚ)
    (n : ℕ) (i : ℕ) : AnalyzerState :=
  let t := process_audio_frame sample_rate s magnitude n
  { bass_level := if 1 ≤ i then t.bass_level else s.bass_level
    mid_level := if 2 ≤ i then t.mid_level else s.mid_level
    high_level := if 3 ≤ i then t.high_level else s.high_level
    overall_volume := if 4 ≤ i then t.overall_volume else s.overall_volume
    volume_history := if 5 ≤ i then t.volume_history else s.volume_history
    beat_cooldown := if 5 ≤ i then t.beat_cooldown else s.beat_cooldown
    beat_detected := if 5 ≤ i then t.beat_detected else s.beat_detected }

/-- Modelled from the spec (§4.3, steps 2–3): band energy described
directly over bin indices — "select the magnitude bins whose frequency
`freqs[k] = k * sample_rate / chunk_size` falls within `[low_hz, high_hz]`
and take their arithmetic mean (if no bins fall in range, energy = 0)",
with the spectrum having length `chunk_size / 2 + 1`. -/
def band_mean_spec (magnitude : List ℚ) (n : ℕ) (sample_rate lo hi : ℚ) : ℚ :=
  let bins : List ℕ := (List.range (n / 2 + 1)).filter
      (fun k => decide (lo ≤ (k : ℚ) * sample_rate / (n : ℚ) ∧
        (k : ℚ) * sample_rate / (n : ℚ) ≤ hi))
  if 0 < bins.length then listMean (bins.map (fun k => magnitude.getD k 0)) else 0

/-- A concrete loudness trace: quiet, a spike at index 10, quiet again,
and a second spike at index 20. -/
def trace10 : List ℚ :=
  List.replicate 10 0 ++ [10] ++ List.replicate 9 0 ++ [100]

/-! ### C1: the frame channel -/

/-- C1 counterexample: the claim says the channel is bounded with capacity
8–16 and never holds more frames than that; but `queue.Queue()` is
unbounded, so 17 pushes from the capture callback with no pops leave 17
frames queued, exceeding any capacity bound in 8–16. -/
theorem queue_exceeds_capacity_bound :
    16 < ((List.replicate 17 ([] : List ℚ)).foldl audio_callback_put []).length := by
  decide

/-- C1 (amended): the frame channel is `queue.Queue()` with the default
`maxsize = 0`, i.e. unbounded: a non-blocking push never finds the channel
full and never drops the incoming frame — it appends it at the tail, so
already-queued frames keep their order and after `n` pushes with no pops
the queue holds exactly the `n` pushed frames, unbounded by any capacity. -/
theorem queue_put_appends (q : List (List ℚ)) (frame : List ℚ)
    (frames : List (List ℚ)) :
    audio_callback_put q frame = q ++ [frame] ∧
    List.foldl audio_callback_put q frames = q ++ frames := by
  constructor
  · simp [audio_callback_put, queue_maxsize]
  · induction frames generalizing q with
    | nil => simp
    | cons f fs ih =>
      simp only [List.foldl_cons, audio_callback_put, queue_maxsize]
      norm_num
      rw [ih]
      simp

/-! ### C4: start with no audio backend, neutral snapshot -/

/-- Whatever events are applied to an engine whose audio libraries failed
to import, it never becomes available, never runs the worker, and its
analysis state stays at the `__init__` values. -/
theorem engineRun_unavailable_aux (sample_rate : ℚ) (evs : List AudioEvent) :
    ∀ s : EngineState, s.audio_available = false → s.is_running = false →
      s.analyzer = initAnalyzerState →
      (engineRun sample_rate s evs).audio_available = false ∧
      (engineRun sample_rate s evs).is_running = false ∧
      (engineRun sample_rate s evs).analyzer = initAnalyzerState := by
  induction evs with
  | nil => intro s h1 h2 h3; exact ⟨h1, h2, h3⟩
  | cons e evs ih =>
    intro s h1 h2 h3
    have hstep : (engineStep sample_rate s e).audio_available = false ∧
        (engineStep sample_rate s e).is_running = false ∧
        (engineStep sample_rate s e).analyzer = initAnalyzerState := by
      cases e with
      | start open_ok => simp [engineStep, start_audio_capture, h1, h2, h3]
      | stop => simp [engineStep, stop_audio_capture, h1, h3]
      | frame magnitude n => simp [engineStep, h1, h2, h3]
    exact ih _ hstep.1 hstep.2.1 hstep.2.2

/-- C4 counterexample: the claim says `start()` on a system with no audio
backend returns an `Unavailable` status distinguishable from the hard
`Error` case; in the source both paths return the same value `False`, so
the two outcomes are indistinguishable to the caller. -/
theorem start_unavailable_indistinguishable_from_error :
    (start_audio_capture (initEngine false) true).1 =
      (start_audio_capture (initEngine true) false).1 ∧
    (start_audio_capture (initEngine false) true).1 = false := by
  exact ⟨rfl, rfl⟩

/-- C4 (amended): when no audio backend is available, `start_audio_capture`
returns `False` — the same value it returns on a hard failure, so the two
cases are not distinguishable — and after any sequence of lifecycle or
frame events every `get_audio_features()` call returns the neutral
snapshot `{0, 0, 0, 0, False}`, forever and without raising. -/
theorem unavailable_start_false_and_neutral (sample_rate : ℚ)
    (evs : List AudioEvent) (open_ok : Bool) :
    (start_audio_capture (engineRun sample_rate (initEngine false) evs) open_ok).1
        = false ∧
    get_audio_features (engineRun sample_rate (initEngine false) evs).analyzer
        = neutralFeatures := by
  obtain ⟨h1, h2, h3⟩ :=
    engineRun_unavailable_aux sample_rate evs (initEngine false) rfl rfl rfl
  constructor
  · simp [start_audio_capture, h1]
  · rw [h3]
    norm_num [get_audio_features, initAnalyzerState, neutralFeatures]

/-! ### C7: stop is not an idempotent no-op -/

/-- C7: evaluation at the failing input.  On a system with audio libraries
present, a fresh `start_audio_capture()` succeeds; but
`stop_audio_capture()` called when capture was never started is not a
no-op (it terminates the shared `PyAudio` instance, changing the engine
state), and a `start_audio_capture()` after a stop returns `False` even
though a working device is available, because `open` is attempted on the
terminated instance. -/
theorem stop_not_idempotent_breaks_restart :
    (start_audio_capture (initEngine true) true).1 = true ∧
    stop_audio_capture (initEngine true) ≠ initEngine true ∧
    (start_audio_capture (stop_audio_capture (initEngine true)) true).1 = false := by
  refine ⟨rfl, ?_, rfl⟩
  intro h
  have hpa := congrArg EngineState.pa_alive h
  simp [stop_audio_capture, initEngine] at hpa

/-! ### Beat-detector step lemmas -/

/-- Case analysis of one `_detect_beat` step: either a beat is reported,
the cooldown is reset to 10, and the cooldown before the step was at most
1 (the source decrements the counter before testing it for zero); or no
beat is reported and the cooldown is at its decremented value (truncated
subtraction: `0` stays `0`). -/
theorem detect_beat_cases (s : AnalyzerState) (v : ℚ) :
    ((detect_beat s v).beat_detected = true ∧ (detect_beat s v).beat_cooldown = 10 ∧
      s.beat_cooldown ≤ 1) ∨
    ((detect_beat s v).beat_detected = false ∧
      (detect_beat s v).beat_cooldown = s.beat_cooldown - 1) := by
  unfold detect_beat
  dsimp only
  split_ifs with h1 h2 h3 h4 h5 h6 <;>
    first
      | (left
         refine ⟨rfl, rfl, ?_⟩
         omega)
      | (right
         exact ⟨rfl, rfl⟩)
      | (right
         refine ⟨rfl, ?_⟩
         dsimp only
         simp only [List.length_drop, List.length_append, List.length_cons,
           List.length_nil] at *
         omega)

/-- A step that detects a beat sets the cooldown to 10. -/
theorem detect_beat_cooldown_of_detected (s : AnalyzerState) (v : ℚ)
    (h : (detect_beat s v).beat_detected = true) :
    (detect_beat s v).beat_cooldown = 10 := by
  rcases detect_beat_cases s v with ⟨-, h10, -⟩ | ⟨hf, -⟩
  · exact h10
  · rw [h] at hf
    exact absurd hf (by simp)

/-- A step can only detect a beat when the cooldown before the step was at
most 1. -/
theorem detect_beat_prev_cooldown (s : AnalyzerState) (v : ℚ)
    (h : (detect_beat s v).beat_detected = true) : s.beat_cooldown ≤ 1 := by
  rcases detect_beat_cases s v with ⟨-, -, hle⟩ | ⟨hf, -⟩
  · exact hle
  · rw [h] at hf
    exact absurd hf (by simp)

/-- With cooldown at least 2 before the step, no beat is reported. -/
theorem detect_beat_not_detected (s : AnalyzerState) (v : ℚ)
    (h : 2 ≤ s.beat_cooldown) : (detect_beat s v).beat_detected = false := by
  rcases detect_beat_cases s v with ⟨-, -, hle⟩ | ⟨hf, -⟩
  · omega
  · exact hf

/-- A step that does not detect a beat leaves the cooldown at its
decremented value. -/
theorem detect_beat_cooldown_of_not_detected (s : AnalyzerState) (v : ℚ)
    (h : (detect_beat s v).beat_detected = false) :
    (detect_beat s v).beat_cooldown = s.beat_cooldown - 1 := by
  rcases detect_beat_cases s v with ⟨ht, -, -⟩ | ⟨-, hcd⟩
  · rw [h] at ht
    exact absurd ht (by simp)
  · exact hcd

/-- While the cooldown exceeds `k + 1`, the detector cannot report a beat
at position `k` of the remaining trace. -/
theorem runDetect_no_detect : ∀ (vs : List ℚ) (s : AnalyzerState) (k : ℕ),
    k + 1 < s.beat_cooldown → (runDetect s vs).get? k ≠ some true := by
  intro vs
  induction vs with
  | nil => intro s k _h; simp [runDetect]
  | cons v vs ih =>
    intro s k hk
    have hnd := detect_beat_not_detected s v (by omega)
    have hcd := detect_beat_cooldown_of_not_detected s v hnd
    match k with
    | 0 => simp [runDetect, hnd]
    | k + 1 =>
      simp only [runDetect, List.get?_cons_succ]
      exact ih (detect_beat s v) k (by omega)

/-- Any two beat detections in a trace are at least 10 frames apart. -/
theorem runDetect_min_sep : ∀ (vs : List ℚ) (s : AnalyzerState) (i j : ℕ),
    i < j → (runDetect s vs).get? i = some true →
    (runDetect s vs).get? j = some true → i + 10 ≤ j := by
  intro vs
  induction vs with
  | nil => intro s i j _ hi _; simp [runDetect] at hi
  | cons v vs ih =>
    intro s i j hij hi hj
    match i, j with
    | 0, 0 => omega
    | _ + 1, 0 => omega
    | 0, j + 1 =>
      simp only [runDetect, List.get?_cons_zero, Option.some.injEq] at hi
      simp only [runDetect, List.get?_cons_succ] at hj
      have hcd := detect_beat_cooldown_of_detected s v hi
      by_contra hlt
      push_neg at hlt
      exact runDetect_no_detect vs (detect_beat s v) j (by omega) hj
    | i + 1, j + 1 =>
      simp only [runDetect, List.get?_cons_succ] at hi hj
      have := ih (detect_beat s v) i j (by omega) hi hj
      omega

/-! ### C2: minimum separation of beat detections -/

/-- C2 counterexample: from the initial state, the trace `trace10`
produces beat detections at frames 10 and 20, which lie exactly 10 — the
cooldown length — frames apart; so the detector does report `true` on two
frames within 10 frames of each other (the cooldown guarantees only 9
suppressed frames, because the source decrements the counter before
testing it for zero). -/
theorem beat_detections_exactly_cooldown_apart :
    (runDetect initAnalyzerState trace10).get? 10 = some true ∧
    (runDetect initAnalyzerState trace10).get? 20 = some true ∧
    20 - 10 ≤ 10 := by
  refine ⟨?_, ?_, by norm_num⟩ <;>
    norm_num [trace10, runDetect, detect_beat, listMean, beat_threshold,
      initAnalyzerState, List.replicate]

/-- C2 (amended): for every input sequence fed to the beat detector from
its initial state, two frames both reported as `detected = true` are at
least 10 (the cooldown length) frames apart — detections strictly within
10 frames of each other are impossible, while a separation of exactly 10
frames can occur. -/
theorem beat_cooldown_min_separation (vs : List ℚ) (i j : ℕ) (hij : i < j)
    (hi : (runDetect initAnalyzerState vs).get? i = some true)
    (hj : (runDetect initAnalyzerState vs).get? j = some true) :
    i + 10 ≤ j :=
  runDetect_min_sep vs initAnalyzerState i j hij hi hj

/-- Witness for `beat_cooldown_min_separation` at the concrete trace
`trace10`: detections at frames 10 and 20, and indeed `10 + 10 ≤ 20`. -/
theorem beat_cooldown_min_separation_witness :
    10 < 20 ∧
    (runDetect initAnalyzerState trace10).get? 10 = some true ∧
    (runDetect initAnalyzerState trace10).get? 20 = some true ∧
    10 + 10 ≤ 20 := by
  have h10 : (runDetect initAnalyzerState trace10).get? 10 = some true := by
    norm_num [trace10, runDetect, detect_beat, listMean, beat_threshold,
      initAnalyzerState, List.replicate]
  have h20 : (runDetect initAnalyzerState trace10).get? 20 = some true := by
    norm_num [trace10, runDetect, detect_beat, listMean, beat_threshold,
      initAnalyzerState, List.replicate]
  exact ⟨by norm_num, h10, h20,
    beat_cooldown_min_separation trace10 10 20 (by norm_num) h10 h20⟩

/-! ### C3: behaviour during cooldown -/

/-- C3 counterexample: in a state with `cooldown_remaining = 1` (so `n > 0`)
and a quiet 9-sample history, processing the sample `1` does evaluate the
threshold: the step reports `detected = true` and starts a new cooldown of
10, instead of reporting `false` with cooldown `0` as the claim requires
for every `n > 0`. -/
theorem cooldown_one_evaluates_threshold :
    (detect_beat { initAnalyzerState with
      volume_history := List.replicate 9 0
      beat_cooldown := 1 } 1).beat_detected = true ∧
    (detect_beat { initAnalyzerState with
      volume_history := List.replicate 9 0
      beat_cooldown := 1 } 1).beat_cooldown = 10 := by
  constructor <;>
    norm_num [detect_beat, listMean, beat_threshold, initAnalyzerState, List.replicate]

/-- C3 (amended): for every detector state with `cooldown_remaining = n ≥ 2`
and every incoming raw overall-loudness sample, one beat-detection step
decrements `n` by one and reports `detected = false` without evaluating the
threshold (the sample value is irrelevant); when `n = 1` the decrement
reaches 0 and the threshold is evaluated on that same frame, so a new
detection and cooldown can start immediately. -/
theorem cooldown_step_decrements (s : AnalyzerState) (v : ℚ)
    (h : 2 ≤ s.beat_cooldown) :
    (detect_beat s v).beat_detected = false ∧
    (detect_beat s v).beat_cooldown = s.beat_cooldown - 1 := by
  have hnd := detect_beat_not_detected s v h
  exact ⟨hnd, detect_beat_cooldown_of_not_detected s v hnd⟩

/-- Witness for `cooldown_step_decrements` at a concrete state with
cooldown 2 and the loud sample 100: no beat, cooldown decremented to 1. -/
theorem cooldown_step_decrements_witness :
    2 ≤ ({ initAnalyzerState with beat_cooldown := 2 } : AnalyzerState).beat_cooldown ∧
    (detect_beat { initAnalyzerState with beat_cooldown := 2 } 100).beat_detected
        = false ∧
    (detect_beat { initAnalyzerState with beat_cooldown := 2 } 100).beat_cooldown =
      ({ initAnalyzerState with beat_cooldown := 2 } : AnalyzerState).beat_cooldown - 1 :=
  ⟨by norm_num [initAnalyzerState],
    cooldown_step_decrements { initAnalyzerState with beat_cooldown := 2 } 100
      (by norm_num [initAnalyzerState])⟩

/-! ### C10: a silent history makes any positive sample a beat -/

/-- Every element of `(l ++ [v]).take k` with `k ≤ l.length` is an element
of `l`. -/
theorem mem_take_append (l : List ℚ) (v : ℚ) (k : ℕ) (hk : k ≤ l.length) :
    ∀ x ∈ (l ++ [v]).take k, x ∈ l := by
  intro x hx
  rw [List.take_append_eq_append_take] at hx
  have hz : k - l.length = 0 := by omega
  rw [hz] at hx
  simp only [List.take_zero, List.append_nil] at hx
  exact List.take_subset k l hx

/-- The mean of a list of zeros is zero. -/
theorem listMean_of_zeros (l : List ℚ) (hz : ∀ x ∈ l, x = 0) : listMean l = 0 := by
  simp [listMean, List.sum_eq_zero hz]


/-- Every element of `((l ++ [v]).drop 1).take k` with `k ≤ l.length - 1`
and `1 ≤ l.length` is an element of `l`. -/
theorem mem_take_drop_append (l : List ℚ) (v : ℚ) (k : ℕ) (hk : k ≤ l.length - 1)
    (hl : 1 ≤ l.length) : ∀ x ∈ ((l ++ [v]).drop 1).take k, x ∈ l := by
  intro x hx
  rw [List.drop_append_eq_append_drop] at hx
  rw [(by omega : 1 - l.length = 0), List.drop_zero] at hx
  have hx' := mem_take_append (l.drop 1) v k (by rw [List.length_drop]; omega) x hx
  exact List.drop_subset 1 l hx'

/-- C10: for every detector state with `cooldown_remaining = 0` whose
loudness history holds at least 10 samples, all equal to 0, any strictly
positive raw overall loudness is reported as a beat — however small —
because the multiplicative threshold is compared against a zero trailing
average. -/
theorem silent_history_any_positive_detects (s : AnalyzerState) (v : ℚ)
    (hcd : s.beat_cooldown = 0) (hlen : 10 ≤ s.volume_history.length)
    (hz : ∀ x ∈ s.volume_history, x = 0) (hv : 0 < v) :
    (detect_beat s v).beat_detected = true := by
  have hmean : ∀ l : List ℚ, (∀ x ∈ l, x ∈ s.volume_history) →
      listMean l * beat_threshold < v := by
    intro l hl
    rw [listMean_of_zeros l (fun x hx => hz x (hl x hx)), zero_mul]
    exact hv
  unfold detect_beat
  dsimp only
  rw [hcd]
  split_ifs <;>
    first
      | omega
      | rfl
      | (rename_i hcond
         exfalso
         apply hcond
         refine ⟨?_, rfl, ?_⟩
         · simp only [List.length_drop, List.length_append, List.length_cons,
             List.length_nil]
           omega
         · apply hmean
           first
             | exact mem_take_drop_append s.volume_history v _
                 (by
                   simp only [List.length_drop, List.length_append, List.length_cons,
                     List.length_nil]
                   omega)
                 (by omega)
             | exact mem_take_append s.volume_history v _
                 (by
                   simp only [List.length_append, List.length_cons, List.length_nil]
                   omega))

/-- Witness for `silent_history_any_positive_detects`: ten zero samples of
history, cooldown 0, and the tiny positive loudness `1/1000` is reported
as a beat. -/
theorem silent_history_any_positive_detects_witness :
    ({ initAnalyzerState with volume_history := List.replicate 10 0 } :
        AnalyzerState).beat_cooldown = 0 ∧
    10 ≤ ({ initAnalyzerState with volume_history := List.replicate 10 0 } :
        AnalyzerState).volume_history.length ∧
    (∀ x ∈ ({ initAnalyzerState with volume_history := List.replicate 10 0 } :
        AnalyzerState).volume_history, x = 0) ∧
    (0 : ℚ) < 1 / 1000 ∧
    (detect_beat { initAnalyzerState with volume_history := List.replicate 10 0 }
        (1 / 1000)).beat_detected = true := by
  refine ⟨rfl, by norm_num [initAnalyzerState], ?_, by norm_num, ?_⟩
  · intro x hx
    exact List.eq_of_mem_replicate hx
  · exact silent_history_any_positive_detects
      { initAnalyzerState with volume_history := List.replicate 10 0 } (1 / 1000)
      rfl (by norm_num [initAnalyzerState])
      (fun x hx => List.eq_of_mem_replicate hx) (by norm_num)

/-! ### C5: snapshot normalization and clamping -/

/-- The mean of a list of nonnegative rationals is nonnegative. -/
theorem listMean_nonneg (l : List ℚ) (h : ∀ x ∈ l, 0 ≤ x) : 0 ≤ listMean l :=
  div_nonneg (List.sum_nonneg h) (Nat.cast_nonneg _)

/-- A band mean over a nonnegative magnitude spectrum is nonnegative. -/
theorem band_mean_nonneg (mag freqs : List ℚ) (lo hi : ℚ)
    (hmag : ∀ x ∈ mag, 0 ≤ x) : 0 ≤ band_mean mag freqs lo hi := by
  unfold band_mean
  dsimp only
  split_ifs with h
  · apply listMean_nonneg
    intro x hx
    obtain ⟨⟨f, m⟩, hp, rfl⟩ := List.mem_map.mp hx
    exact hmag m (List.of_mem_zip (List.mem_of_mem_filter hp)).2
  · exact le_refl 0

/-- `_detect_beat` writes only the detector fields; the four smoothed
levels pass through unchanged. -/
theorem detect_beat_levels (s : AnalyzerState) (v : ℚ) :
    (detect_beat s v).bass_level = s.bass_level ∧
    (detect_beat s v).mid_level = s.mid_level ∧
    (detect_beat s v).high_level = s.high_level ∧
    (detect_beat s v).overall_volume = s.overall_volume := by
  unfold detect_beat
  dsimp only
  split_ifs <;> exact ⟨rfl, rfl, rfl, rfl⟩

/-- The four smoothed levels after one `_process_audio` iteration are the
exponential-smoothing updates of the previous levels with the band means
of the incoming frame. -/
theorem process_audio_frame_levels (sample_rate : ℚ) (s : AnalyzerState)
    (magnitude : List ℚ) (n : ℕ) :
    (process_audio_frame sample_rate s magnitude n).bass_level =
      s.bass_level * smoothing_factor +
        band_mean magnitude (rfftfreq n sample_rate) bass_range.1 bass_range.2 *
          (1 - smoothing_factor) ∧
    (process_audio_frame sample_rate s magnitude n).mid_level =
      s.mid_level * smoothing_factor +
        band_mean magnitude (rfftfreq n sample_rate) mid_range.1 mid_range.2 *
          (1 - smoothing_factor) ∧
    (process_audio_frame sample_rate s magnitude n).high_level =
      s.high_level * smoothing_factor +
        band_mean magnitude (rfftfreq n sample_rate) high_range.1 high_range.2 *
          (1 - smoothing_factor) ∧
    (process_audio_frame sample_rate s magnitude n).overall_volume =
      s.overall_volume * smoothing_factor + listMean magnitude * (1 - smoothing_factor) := by
  unfold process_audio_frame
  dsimp only
  exact ⟨(detect_beat_levels _ _).1, (detect_beat_levels _ _).2.1,
    (detect_beat_levels _ _).2.2.1, (detect_beat_levels _ _).2.2.2⟩

/-- Every reachable analyzer state has nonnegative smoothed levels: they
start at 0 and are updated by convex combinations of nonnegative band
means of nonnegative magnitude spectra. -/
theorem reachable_levels_nonneg (s : AnalyzerState) (h : ReachableAnalyzer s) :
    0 ≤ s.bass_level ∧ 0 ≤ s.mid_level ∧ 0 ≤ s.high_level ∧ 0 ≤ s.overall_volume := by
  induction h with
  | init => exact ⟨le_refl 0, le_refl 0, le_refl 0, le_refl 0⟩
  | step s sample_rate magnitude n hmag _ ih =>
    obtain ⟨hb, hm, hh, ho⟩ := ih
    obtain ⟨e1, e2, e3, e4⟩ := process_audio_frame_levels sample_rate s magnitude n
    have hsf : (0 : ℚ) ≤ smoothing_factor := by norm_num [smoothing_factor]
    have hsf' : (0 : ℚ) ≤ 1 - smoothing_factor := by norm_num [smoothing_factor]
    have hband : ∀ lo hi : ℚ, 0 ≤ band_mean magnitude (rfftfreq n sample_rate) lo hi :=
      fun lo hi => band_mean_nonneg magnitude (rfftfreq n sample_rate) lo hi hmag
    refine ⟨?_, ?_, ?_, ?_⟩
    · rw [e1]
      exact add_nonneg (mul_nonneg hb hsf) (mul_nonneg (hband _ _) hsf')
    · rw [e2]
      exact add_nonneg (mul_nonneg hm hsf) (mul_nonneg (hband _ _) hsf')
    · rw [e3]
      exact add_nonneg (mul_nonneg hh hsf) (mul_nonneg (hband _ _) hsf')
    · rw [e4]
      exact add_nonneg (mul_nonneg ho hsf)
        (mul_nonneg (listMean_nonneg magnitude hmag) hsf')

/-- C5: for every reachable analyzer state, `get_audio_features` returns
each of the four levels equal to the corresponding smoothed level scaled
by its per-band constant (bass ×100, mid ×50, high ×20, overall ×30) and
clamped to the closed interval `[0, 1]`; in particular every returned
level is `≥ 0` and `≤ 1`. -/
theorem snapshot_clamped (s : AnalyzerState) (h : ReachableAnalyzer s) :
    ((get_audio_features s).bass_level = max 0 (min (s.bass_level * 100) 1) ∧
     (get_audio_features s).mid_level = max 0 (min (s.mid_level * 50) 1) ∧
     (get_audio_features s).high_level = max 0 (min (s.high_level * 20) 1) ∧
     (get_audio_features s).overall_volume = max 0 (min (s.overall_volume * 30) 1)) ∧
    (0 ≤ (get_audio_features s).bass_level ∧ (get_audio_features s).bass_level ≤ 1) ∧
    (0 ≤ (get_audio_features s).mid_level ∧ (get_audio_features s).mid_level ≤ 1) ∧
    (0 ≤ (get_audio_features s).high_level ∧ (get_audio_features s).high_level ≤ 1) ∧
    (0 ≤ (get_audio_features s).overall_volume ∧
      (get_audio_features s).overall_volume ≤ 1) := by
  obtain ⟨hb, hm, hh, ho⟩ := reachable_levels_nonneg s h
  have key : ∀ x c : ℚ, 0 ≤ x → 0 ≤ c →
      min (x * c) 1 = max 0 (min (x * c) 1) ∧
        0 ≤ min (x * c) 1 ∧ min (x * c) 1 ≤ 1 := by
    intro x c hx hc
    have h0 : 0 ≤ min (x * c) 1 := le_min (mul_nonneg hx hc) zero_le_one
    exact ⟨(max_eq_right h0).symm, h0, min_le_right _ _⟩
  obtain ⟨e1, f1, g1⟩ := key s.bass_level 100 hb (by norm_num)
  obtain ⟨e2, f2, g2⟩ := key s.mid_level 50 hm (by norm_num)
  obtain ⟨e3, f3, g3⟩ := key s.high_level 20 hh (by norm_num)
  obtain ⟨e4, f4, g4⟩ := key s.overall_volume 30 ho (by norm_num)
  exact ⟨⟨e1, e2, e3, e4⟩, ⟨f1, g1⟩, ⟨f2, g2⟩, ⟨f3, g3⟩, ⟨f4, g4⟩⟩

/-- Witness for `snapshot_clamped` at the initial (reachable) state. -/
theorem snapshot_clamped_witness :
    ((get_audio_features initAnalyzerState).bass_level =
        max 0 (min (initAnalyzerState.bass_level * 100) 1) ∧
     (get_audio_features initAnalyzerState).mid_level =
        max 0 (min (initAnalyzerState.mid_level * 50) 1) ∧
     (get_audio_features initAnalyzerState).high_level =
        max 0 (min (initAnalyzerState.high_level * 20) 1) ∧
     (get_audio_features initAnalyzerState).overall_volume =
        max 0 (min (initAnalyzerState.overall_volume * 30) 1)) ∧
    (0 ≤ (get_audio_features initAnalyzerState).bass_level ∧
      (get_audio_features initAnalyzerState).bass_level ≤ 1) ∧
    (0 ≤ (get_audio_features initAnalyzerState).mid_level ∧
      (get_audio_features initAnalyzerState).mid_level ≤ 1) ∧
    (0 ≤ (get_audio_features initAnalyzerState).high_level ∧
      (get_audio_features initAnalyzerState).high_level ≤ 1) ∧
    (0 ≤ (get_audio_features initAnalyzerState).overall_volume ∧
      (get_audio_features initAnalyzerState).overall_volume ≤ 1) :=
  snapshot_clamped initAnalyzerState ReachableAnalyzer.init

/-! ### C6: spectral band extraction matches the spec description -/

/-- Selecting-by-zip equals selecting-by-index: filtering the zip of a
mapped index range with a list and keeping the second components is the
same as filtering the index range and reading the list at each index. -/
theorem sel_eq (g : ℕ → ℚ) (p : ℚ → Bool) :
    ∀ (mag : List ℚ) (s : ℕ),
      ((((List.range' s mag.length).map g).zip mag).filter
          (fun q => p q.1)).map Prod.snd
        = ((List.range' s mag.length).filter (fun k => p (g k))).map
            (fun k => mag.getD (k - s) 0) := by
  intro mag
  induction mag with
  | nil => intro s; rfl
  | cons a mag ih =>
    intro s
    rw [List.length_cons, List.range'_succ]
    simp only [List.map_cons, List.zip_cons_cons, List.filter_cons]
    have hshift : ∀ k ∈ (List.range' (s + 1) mag.length).filter (fun k => p (g k)),
        mag.getD (k - (s + 1)) 0 = (a :: mag).getD (k - s) 0 := by
      intro k hk
      have hk' : s + 1 ≤ k := by
        have hmem := List.mem_of_mem_filter hk
        rw [List.mem_range'_1] at hmem
        omega
      rw [show k - s = (k - (s + 1)) + 1 by omega, List.getD_cons_succ]
    cases hpg : p (g s) with
    | true =>
      simp only [hpg, if_true, Nat.sub_self, List.getD_cons_zero, List.map_cons]
      rw [ih (s + 1)]
      exact congrArg (List.cons a) (List.map_congr_left hshift)
    | false =>
      simp only [hpg, Bool.false_eq_true, if_false]
      rw [ih (s + 1)]
      exact List.map_congr_left hshift

/-- C6: the spectral analysis is a pure function of the frame and the
sample rate.  When the magnitude spectrum has the length `n / 2 + 1`
produced by `np.fft.rfft` on a chunk of `n` samples, the source's band
energy (mean over the magnitude bins selected by zipping against the
frequency axis, `0` if the selection is empty) coincides with the spec's
description over bin indices `k` with `freqs[k] = k * sample_rate / n`
lying in the closed band range; and the frequency axis — hence the full
spectrum whose mean is the `overall` value — has length `n / 2 + 1`. -/
theorem band_energy_matches_spec (magnitude : List ℚ) (n : ℕ) (sr lo hi : ℚ)
    (h : magnitude.length = n / 2 + 1) :
    band_mean magnitude (rfftfreq n sr) lo hi = band_mean_spec magnitude n sr lo hi ∧
    (rfftfreq n sr).length = n / 2 + 1 := by
  constructor
  · have key := sel_eq (fun k => (k : ℚ) * sr / (n : ℚ))
      (fun x => decide (lo ≤ x ∧ x ≤ hi)) magnitude 0
    rw [← List.range_eq_range'] at key
    rw [h] at key
    simp only [Nat.sub_zero] at key
    unfold band_mean band_mean_spec rfftfreq
    dsimp only
    rw [key]
    simp [List.length_map]
  · simp [rfftfreq]

/-- Witness for `band_energy_matches_spec`: a two-bin spectrum `[3, 5]`
for chunk size 2 at sample rate 10, over the band `[0, 5]`. -/
theorem band_energy_matches_spec_witness :
    ([3, 5] : List ℚ).length = 2 / 2 + 1 ∧
    (band_mean [3, 5] (rfftfreq 2 10) 0 5 = band_mean_spec [3, 5] 2 10 0 5 ∧
      (rfftfreq 2 10).length = 2 / 2 + 1) :=
  ⟨by norm_num, band_energy_matches_spec [3, 5] 2 10 0 5 (by norm_num)⟩

/-! ### C8: exponential smoothing convergence -/

/-- Closed form of the smoother under constant input `v` from the initial
value 0: after `n` updates the state is `v * (1 - smoothing_factor ^ n)`. -/
theorem smooth_iter_closed (v : ℚ) (n : ℕ) :
    smooth_iter v n = v * (1 - smoothing_factor ^ n) := by
  induction n with
  | zero => simp [smooth_iter]
  | succ n ih =>
    simp only [smooth_iter, smooth_update, ih, pow_succ]
    ring

/-- C8 counterexample: the claim's convergence bound fails for large
constant inputs.  With constant raw input `v = 1000`, after exactly
`ceil(log(0.001)/log(0.8)) = 31` updates the smoothed value is still about
`0.99` away from `v`, far more than `0.001` (the residual is `v * 0.8^31`,
which is only `≤ 0.001` when `v ≤ 1`). -/
theorem smoother_misses_tolerance_at_large_input :
    ¬ |smooth_iter 1000 31 - 1000| ≤ 1 / 1000 := by
  rw [smooth_iter_closed]
  intro hc
  rw [abs_le] at hc
  obtain ⟨hc1, -⟩ := hc
  norm_num [smoothing_factor] at hc1

/-- C8 (amended): each `_process_audio` iteration updates each signal by
`smoothed' = smoothed * alpha + raw * (1 - alpha)` with `alpha = 0.8`
(shown here for the overall-volume signal, whose raw input is the spectrum
mean), independently of the others and starting from 0; and for every
constant raw input `v` with `0 ≤ v ≤ 1`, after at least
`ceil(log(0.001)/log(alpha)) = 31` consecutive updates the smoothed value
is within `0.001` of `v` (for general `v` the residual is `v * alpha ^ n`,
so the absolute `0.001` bound holds only for `|v| ≤ 1`). -/
theorem smoother_update_and_convergence :
    (∀ (sample_rate : ℚ) (s : AnalyzerState) (magnitude : List ℚ) (n : ℕ),
      (process_audio_frame sample_rate s magnitude n).overall_volume =
        smooth_update s.overall_volume (listMean magnitude)) ∧
    ∀ v : ℚ, 0 ≤ v → v ≤ 1 → ∀ n : ℕ, 31 ≤ n → |smooth_iter v n - v| ≤ 1 / 1000 := by
  constructor
  · intro sample_rate s magnitude n
    exact (process_audio_frame_levels sample_rate s magnitude n).2.2.2
  · intro v h0 h1 n hn
    rw [smooth_iter_closed]
    have heq : v * (1 - smoothing_factor ^ n) - v = -(v * smoothing_factor ^ n) := by
      ring
    have hsf : (0 : ℚ) ≤ smoothing_factor := by norm_num [smoothing_factor]
    rw [heq, abs_neg, abs_of_nonneg (mul_nonneg h0 (pow_nonneg hsf n))]
    have hpow : smoothing_factor ^ n ≤ smoothing_factor ^ 31 :=
      pow_le_pow_of_le_one hsf (by norm_num [smoothing_factor]) hn
    have h31 : smoothing_factor ^ 31 ≤ 1 / 1000 := by norm_num [smoothing_factor]
    calc v * smoothing_factor ^ n ≤ 1 * smoothing_factor ^ n :=
          mul_le_mul_of_nonneg_right h1 (pow_nonneg hsf n)
      _ = smoothing_factor ^ n := one_mul _
      _ ≤ smoothing_factor ^ 31 := hpow
      _ ≤ 1 / 1000 := h31

/-- Witness for `smoother_update_and_convergence` at `v = 1`, `n = 31`. -/
theorem smoother_update_and_convergence_witness :
    0 ≤ (1 : ℚ) ∧ (1 : ℚ) ≤ 1 ∧ 31 ≤ 31 ∧ |smooth_iter 1 31 - 1| ≤ 1 / 1000 :=
  ⟨by norm_num, by norm_num, by norm_num,
    smoother_update_and_convergence.2 1 (by norm_num) (by norm_num) 31 (by norm_num)⟩

/-! ### C9: snapshot consistency under concurrent publication -/

/-- C9 (amended): `get_audio_features` is a total function (it never
raises and always returns a fully-formed record), and at every point of
the worker's five-write publication each published field individually
holds either the previous cycle's value or the new cycle's value — but a
reader between writes is not guaranteed a single cycle (see the
counterexample). -/
theorem publish_upto_fields (sample_rate : ℚ) (s : AnalyzerState)
    (magnitude : List ℚ) (n i : ℕ) :
    ((publish_upto sample_rate s magnitude n i).bass_level = s.bass_level ∨
      (publish_upto sample_rate s magnitude n i).bass_level =
        (process_audio_frame sample_rate s magnitude n).bass_level) ∧
    ((publish_upto sample_rate s magnitude n i).mid_level = s.mid_level ∨
      (publish_upto sample_rate s magnitude n i).mid_level =
        (process_audio_frame sample_rate s magnitude n).mid_level) ∧
    ((publish_upto sample_rate s magnitude n i).high_level = s.high_level ∨
      (publish_upto sample_rate s magnitude n i).high_level =
        (process_audio_frame sample_rate s magnitude n).high_level) ∧
    ((publish_upto sample_rate s magnitude n i).overall_volume = s.overall_volume ∨
      (publish_upto sample_rate s magnitude n i).overall_volume =
        (process_audio_frame sample_rate s magnitude n).overall_volume) ∧
    ((publish_upto sample_rate s magnitude n i).beat_detected = s.beat_detected ∨
      (publish_upto sample_rate s magnitude n i).beat_detected =
        (process_audio_frame sample_rate s magnitude n).beat_detected) := by
  unfold publish_upto
  dsimp only
  refine ⟨?_, ?_, ?_, ?_, ?_⟩ <;> split_ifs <;>
    first
      | exact Or.inl rfl
      | exact Or.inr rfl

/-- C9 counterexample: a snapshot taken after the worker has written the
new bass and mid levels but not yet the overall volume returns a value
that matches neither the previous publication nor the new one — a mixture
of fields from two different processing cycles is observable, because the
source publishes by five separate field writes instead of one atomic
swap. -/
theorem snapshot_observes_mixed_cycles :
    get_audio_features (publish_upto 1000 initAnalyzerState (List.replicate 6 1) 10 2) ≠
        get_audio_features initAnalyzerState ∧
    get_audio_features (publish_upto 1000 initAnalyzerState (List.replicate 6 1) 10 2) ≠
        get_audio_features
          (process_audio_frame 1000 initAnalyzerState (List.replicate 6 1) 10) := by
  constructor
  · intro hc
    have hb := congrArg AudioFeatures.bass_level hc
    norm_num [publish_upto, process_audio_frame, get_audio_features, band_mean,
      rfftfreq, listMean, detect_beat, initAnalyzerState, bass_range, mid_range,
      high_range, smoothing_factor, beat_threshold, List.replicate,
      List.range_succ] at hb
  · intro hc
    have ho := congrArg AudioFeatures.overall_volume hc
    norm_num [publish_upto, process_audio_frame, get_audio_features, band_mean,
      rfftfreq, listMean, detect_beat, initAnalyzerState, bass_range, mid_range,
      high_range, smoothing_factor, beat_threshold, List.replicate,
      List.range_succ] at ho
